import Mathlib

/-!
Verification of the team-usage eligibility and pick-validation engine of the
PickEm NFL survivor-pool application.

The definitions below are a shallow embedding of the relevant parts of
`src/app.py` (SQLAlchemy models `Team`, `Match`, `Pick`, `HistoricalPick`,
`TeamUsage` and the route handler `create_pick` at `/api/picks`).  The
database is modelled as an explicit record of lists (rows in insertion
order); SQLAlchemy's `query.filter_by(...).all()` becomes `List.filter`,
`.first()` becomes removal of the first matching list element, and
`db.session.add` appends at the end of the list.  Auto-increment surrogate
keys (`id`) and wall-clock timestamps (`created_at`) are not modelled: they
are storage-internal and no specified behaviour reads them.

Week resolution (spec section 4.2) has no implementation in the repository
sources; it is modelled from the spec further below (see `resolveWeek`).
-/

/-- Row of the `teams` table (`Team` model in `src/app.py`). -/
structure Team where
  id : Nat
  name : String
  abbreviation : String
  logoUrl : String
  deriving DecidableEq, Repr

/-- Row of the `matches` table (`Match` model in `src/app.py`).
Scores are nullable integer columns, `none` until the game completes. -/
structure Match where
  id : Nat
  week : Nat
  awayTeamId : Nat
  homeTeamId : Nat
  gameTime : String
  isCompleted : Bool
  awayScore : Option Int
  homeScore : Option Int
  deriving DecidableEq, Repr

/-- Row of the `picks` table (`Pick` model in `src/app.py`): a user's
current, still-open-week selection.  `is_correct` is a nullable Boolean,
`none` while the pick is unresolved.  The auto-increment `id` and the
`created_at` timestamp are not modelled. -/
structure Pick where
  userId : Nat
  matchId : Nat
  teamId : Nat
  week : Nat
  isCorrect : Option Bool
  deriving DecidableEq, Repr

/-- Row of the `historical_picks` table (`HistoricalPick` model in
`src/app.py`): an immutable record of a past week's resolved outcome. -/
structure HistoricalPick where
  userId : Nat
  week : Nat
  teamName : String
  teamId : Option Nat
  isCorrect : Bool
  deriving DecidableEq, Repr

/-- Row of the `team_usage` table (`TeamUsage` model in `src/app.py`).
`usageType` is the string column holding "winner" or "loser". -/
structure TeamUsage where
  userId : Nat
  teamId : Nat
  usageType : String
  week : Nat
  deriving DecidableEq, Repr

/-- The record store: one list of rows per table, in insertion order.
The `matches` table is called `matchRows` because `matches` is a reserved
word in Lean. -/
structure State where
  teams : List Team
  matchRows : List Match
  picks : List Pick
  historicalPicks : List HistoricalPick
  teamUsage : List TeamUsage
  deriving DecidableEq, Repr

/-- The JSON body of a `POST /api/picks` request, as read by `create_pick`:
`data.get('match_id')`, `data.get('team_id')`, `data.get('week', 3)`.
`none` models an absent field. -/
structure PickRequest where
  matchId : Option Nat
  teamId : Option Nat
  week : Option Nat
  deriving DecidableEq, Repr

/-- The rejection outcomes of `create_pick` in `src/app.py`, one per early
`return` with an error message:
* `missingFields` — "Match ID und Team ID erforderlich" (HTTP 400);
* `weekClosed` — "Diese Woche ist bereits abgeschlossen" (HTTP 400);
* `teamEliminated` — "Dieses Team wurde bereits als Verlierer verwendet
  und ist eliminiert" (HTTP 400);
* `usageCapReached` — "Dieses Team wurde bereits 2x als Gewinner
  verwendet" (HTTP 400). -/
inductive PickError where
  | missingFields
  | weekClosed
  | teamEliminated
  | usageCapReached
  deriving DecidableEq, Repr

/-- Python truthiness test used by `if not match_id or not team_id`:
an absent field and the integer `0` are both falsy. -/
def falsyNat : Option Nat → Bool
  | none => true
  | some n => n == 0

/-- Effective week of a request: `data.get('week', 3)` defaults to 3. -/
def reqWeek (req : PickRequest) : Nat :=
  req.week.getD 3

/-- `TeamUsage.query.filter_by(user_id=user_id, team_id=team_id).all()`. -/
def teamUsageFor (s : State) (userId teamId : Nat) : List TeamUsage :=
  s.teamUsage.filter (fun u => u.userId == userId && u.teamId == teamId)

/-- `sum(1 for usage in team_usage if usage.usage_type == 'winner')`. -/
def winner_count (s : State) (userId teamId : Nat) : Nat :=
  (teamUsageFor s userId teamId).countP (fun u => u.usageType == "winner")

/-- `sum(1 for usage in team_usage if usage.usage_type == 'loser')`. -/
def loser_count (s : State) (userId teamId : Nat) : Nat :=
  (teamUsageFor s userId teamId).countP (fun u => u.usageType == "loser")

/-- The row predicate of `Pick.query.filter_by(user_id=u, week=w)`. -/
def pickMatches (u w : Nat) (p : Pick) : Bool :=
  p.userId == u && p.week == w

/-- `Pick.query.filter_by(user_id=u, week=w).first()` followed by
`db.session.delete(existing_pick)`: remove the first matching row, if any. -/
def removeFirstPick : List Pick → Nat → Nat → List Pick
  | [], _, _ => []
  | p :: rest, u, w =>
    if pickMatches u w p then rest else p :: removeFirstPick rest u w

/-- The `Pick(...)` constructed by `create_pick` on success: `is_correct`
starts out null. -/
def mkPick (userId : Nat) (req : PickRequest) : Pick :=
  { userId := userId
    matchId := req.matchId.getD 0
    teamId := req.teamId.getD 0
    week := reqWeek req
    isCorrect := none }

/-- The `/api/picks` POST handler `create_pick` of `src/app.py`, lines
446-492.  The session check (`'user_id' not in session`) is modelled by
taking the authenticated `userId` as a parameter.  Returns the store after
the transaction together with the handler's outcome; on every rejection
path the handler returns before any `db.session` mutation, so the input
store is returned unchanged there. -/
def create_pick (s : State) (userId : Nat) (req : PickRequest) :
    State × Except PickError Pick :=
  if falsyNat req.matchId || falsyNat req.teamId then
    (s, .error .missingFields)
  else if reqWeek req ≤ 2 then
    (s, .error .weekClosed)
  else if 0 < loser_count s userId (req.teamId.getD 0) then
    (s, .error .teamEliminated)
  else if 2 ≤ winner_count s userId (req.teamId.getD 0) then
    (s, .error .usageCapReached)
  else
    let np := mkPick userId req
    ({ s with picks := removeFirstPick s.picks userId (reqWeek req) ++ [np] },
     .ok np)

/-- One request against the store: the store after `create_pick`, keeping
the old store on rejection (which `create_pick` already returns). -/
def stepState (s : State) (call : Nat × PickRequest) : State :=
  (create_pick s call.1 call.2).1

/-- A sequence of `create_pick` calls against the store. -/
def runAll (s : State) (calls : List (Nat × PickRequest)) : State :=
  calls.foldl stepState s

/-- Number of open picks of user `u` for week `w` in the store. -/
def countPick (s : State) (u w : Nat) : Nat :=
  s.picks.countP (pickMatches u w)

/-- Invariant: every user has at most one open Pick per week. -/
def atMostOnePick (s : State) : Prop :=
  ∀ u w, countPick s u w ≤ 1

/-- The (user, team) pair has a `loser` entry in the TeamUsage ledger. -/
def hasLoserEntry (s : State) (u t : Nat) : Prop :=
  ∃ e ∈ s.teamUsage, e.userId = u ∧ e.teamId = t ∧ e.usageType = "loser"

/-- Look up a match row by its primary key. -/
def findMatch (rows : List Match) (mid : Nat) : Option Match :=
  rows.find? (fun m => m.id == mid)

/-- Modelled from the spec: the winning team of a completed match is "the
side with strictly higher final score" (section 4.2); equal or missing
scores yield no winner, so a tie counts as an incorrect pick (the spec's
recommended treatment of the unmodeled tie case). -/
def matchWinner (m : Match) : Option Nat :=
  match m.awayScore, m.homeScore with
  | some a, some h =>
    if h < a then some m.awayTeamId
    else if a < h then some m.homeTeamId
    else none
  | _, _ => none

/-- Display name of a team id, used to denormalise `team_name` into a
HistoricalPick row. -/
def teamNameOf (teams : List Team) (tid : Nat) : String :=
  match teams.find? (fun t => t.id == tid) with
  | some t => t.name
  | none => ""

/-- A HistoricalPick for (user, week) already exists — the guard of the
spec's idempotence rule ("re-running resolution is a no-op if a
HistoricalPick for that (user, week) already exists"). -/
def hpExistsFor (hps : List HistoricalPick) (u w : Nat) : Bool :=
  hps.any (fun hp => hp.userId == u && hp.week == w)

/-- Modelled from the spec: a pick of the resolved week is processable when
its match is on file and marked completed (resolution consumes the Match
completion feed, section 4.2).  Returns the pick's match in that case. -/
def pickResolvable (w : Nat) (rows : List Match) (p : Pick) : Option Match :=
  if p.week == w then
    match findMatch rows p.matchId with
    | some m => if m.isCompleted then some m else none
    | none => none
  else none

/-- Modelled from the spec: the immutable HistoricalPick created when a
pick is resolved against its completed match — (user, week, team,
correctness), with the denormalised team name of the app's schema. -/
def mkHistorical (teams : List Team) (w : Nat) (p : Pick) (m : Match) :
    HistoricalPick :=
  { userId := p.userId
    week := w
    teamName := teamNameOf teams p.teamId
    teamId := some p.teamId
    isCorrect := matchWinner m == some p.teamId }

/-- Modelled from the spec: the TeamUsage entry appended when a pick is
resolved — usage type `winner` if the chosen team won, else `loser`. -/
def mkUsage (w : Nat) (p : Pick) (m : Match) : TeamUsage :=
  { userId := p.userId
    teamId := p.teamId
    usageType := if matchWinner m == some p.teamId then "winner" else "loser"
    week := w }

/-- Modelled from the spec: one pass of week resolution (section 4.2, absent
from the repository sources) over the list of open picks.  For each open
pick of week `w` whose match is completed and for which no HistoricalPick
of that (user, week) exists yet, create one immutable HistoricalPick, append
one TeamUsage entry (`winner` if the chosen team won, else `loser`), and
remove the pick; every other pick is kept untouched. -/
def resolveLoop (w : Nat) (rows : List Match) (teams : List Team) :
    List Pick → List HistoricalPick → List TeamUsage →
    List Pick × List HistoricalPick × List TeamUsage
  | [], hps, tus => ([], hps, tus)
  | p :: rest, hps, tus =>
    match pickResolvable w rows p with
    | some m =>
      if hpExistsFor hps p.userId w then
        let out := resolveLoop w rows teams rest hps tus
        (p :: out.1, out.2)
      else
        resolveLoop w rows teams rest
          (hps ++ [mkHistorical teams w p m]) (tus ++ [mkUsage w p m])
    | none =>
      let out := resolveLoop w rows teams rest hps tus
      (p :: out.1, out.2)

/-- Modelled from the spec: week resolution (section 4.2), which has no
implementation under the repository sources — only its data model does. -/
def resolveWeek (w : Nat) (s : State) : State :=
  let out := resolveLoop w s.matchRows s.teams s.picks s.historicalPicks s.teamUsage
  { s with picks := out.1, historicalPicks := out.2.1, teamUsage := out.2.2 }

/-- Number of HistoricalPick rows for (user, week). -/
def hpCountFor (hps : List HistoricalPick) (u w : Nat) : Nat :=
  hps.countP (fun hp => hp.userId == u && hp.week == w)

/-- Number of TeamUsage rows for (user, week). -/
def tuCountFor (tus : List TeamUsage) (u w : Nat) : Nat :=
  tus.countP (fun t => t.userId == u && t.week == w)

/-! Concrete stores and requests used to evaluate the theorems. -/

/-- A store with every table empty. -/
def stEmpty : State :=
  { teams := [], matchRows := [], picks := [], historicalPicks := [], teamUsage := [] }

/-- A week-3 match between teams 1 (away) and 2 (home), not yet completed. -/
def openMatch : Match :=
  { id := 1, week := 3, awayTeamId := 1, homeTeamId := 2,
    gameTime := "2025-09-21T19:00:00+02:00", isCompleted := false,
    awayScore := none, homeScore := none }

/-- The same week-3 match, completed with the away team 1 winning 27:13. -/
def doneMatch : Match :=
  { id := 1, week := 3, awayTeamId := 1, homeTeamId := 2,
    gameTime := "2025-09-21T19:00:00+02:00", isCompleted := true,
    awayScore := some 27, homeScore := some 13 }

/-- A store whose only match is the open week-3 match. -/
def stOneMatch : State := { stEmpty with matchRows := [openMatch] }

/-- A store in which every week-3 match is completed. -/
def stAllDone : State := { stEmpty with matchRows := [doneMatch] }

/-- A request picking team 5 in match 1 for week 3 (team 5 does not play in
match 1). -/
def reqTeam5 : PickRequest := { matchId := some 1, teamId := some 5, week := some 3 }

/-- A request picking team 1 in match 1 for week 3. -/
def reqTeam1W3 : PickRequest := { matchId := some 1, teamId := some 1, week := some 3 }

/-- A request missing its `team_id` and its `week` field. -/
def reqNoTeam : PickRequest := { matchId := some 1, teamId := none, week := none }

/-- A single `winner` ledger entry for user 1 and team 5 (week 1). -/
def winnerEntry : TeamUsage := { userId := 1, teamId := 5, usageType := "winner", week := 1 }

/-- A single `loser` ledger entry for user 1 and team 5 (week 1). -/
def loserEntry : TeamUsage := { userId := 1, teamId := 5, usageType := "loser", week := 1 }

/-- A store whose ledger has exactly one `winner` entry for (1, 5). -/
def stOneWinner : State := { stEmpty with teamUsage := [winnerEntry] }

/-- A store whose ledger has exactly one `loser` entry for (1, 5). -/
def stLoser : State := { stEmpty with teamUsage := [loserEntry] }

/-- User 1's open pick of team 1 in match 1, week 3. -/
def pickA : Pick := { userId := 1, matchId := 1, teamId := 1, week := 3, isCorrect := none }

/-- A store ready for week-3 resolution: one completed match, one open pick. -/
def stResolve : State := { stEmpty with matchRows := [doneMatch], picks := [pickA] }

/-! Branch lemmas for `create_pick`, one per return of the handler. -/

/-- Missing `match_id` or `team_id` short-circuits the handler. -/
theorem cp_missing {s : State} {u : Nat} {req : PickRequest}
    (h : (falsyNat req.matchId || falsyNat req.teamId) = true) :
    create_pick s u req = (s, Except.error PickError.missingFields) := by
  simp [create_pick, h]

/-- A week value of at most 2 is rejected as closed. -/
theorem cp_closed {s : State} {u : Nat} {req : PickRequest}
    (h1 : (falsyNat req.matchId || falsyNat req.teamId) = false)
    (h2 : reqWeek req ≤ 2) :
    create_pick s u req = (s, Except.error PickError.weekClosed) := by
  simp [create_pick, h1, h2]

/-- A positive `loser` count rejects the team as eliminated. -/
theorem cp_elim {s : State} {u : Nat} {req : PickRequest}
    (h1 : (falsyNat req.matchId || falsyNat req.teamId) = false)
    (h2 : 2 < reqWeek req)
    (h3 : 0 < loser_count s u (req.teamId.getD 0)) :
    create_pick s u req = (s, Except.error PickError.teamEliminated) := by
  have hw : ¬ reqWeek req ≤ 2 := by omega
  simp [create_pick, h1, hw, h3]

/-- Two `winner` entries reject the team at its lifetime cap. -/
theorem cp_cap {s : State} {u : Nat} {req : PickRequest}
    (h1 : (falsyNat req.matchId || falsyNat req.teamId) = false)
    (h2 : 2 < reqWeek req)
    (h3 : loser_count s u (req.teamId.getD 0) = 0)
    (h4 : 2 ≤ winner_count s u (req.teamId.getD 0)) :
    create_pick s u req = (s, Except.error PickError.usageCapReached) := by
  have hw : ¬ reqWeek req ≤ 2 := by omega
  have hl : ¬ 0 < loser_count s u (req.teamId.getD 0) := by omega
  simp [create_pick, h1, hw, hl, h4]

/-- When every check passes, the first existing pick of (user, week) is
deleted and the new pick is appended. -/
theorem cp_ok {s : State} {u : Nat} {req : PickRequest}
    (h1 : (falsyNat req.matchId || falsyNat req.teamId) = false)
    (h2 : 2 < reqWeek req)
    (h3 : loser_count s u (req.teamId.getD 0) = 0)
    (h4 : winner_count s u (req.teamId.getD 0) < 2) :
    create_pick s u req =
      ({ s with picks := removeFirstPick s.picks u (reqWeek req) ++ [mkPick u req] },
       Except.ok (mkPick u req)) := by
  have hw : ¬ reqWeek req ≤ 2 := by omega
  have hl : ¬ 0 < loser_count s u (req.teamId.getD 0) := by omega
  have hc : ¬ 2 ≤ winner_count s u (req.teamId.getD 0) := by omega
  simp [create_pick, h1, hw, hl, hc]

/-- Every run of the handler either rejects with the store untouched or
accepts with the replace-and-append effect on the picks table. -/
theorem cp_cases (s : State) (u : Nat) (req : PickRequest) :
    (∃ e, create_pick s u req = (s, Except.error e)) ∨
    ((falsyNat req.matchId || falsyNat req.teamId) = false ∧
     2 < reqWeek req ∧
     loser_count s u (req.teamId.getD 0) = 0 ∧
     winner_count s u (req.teamId.getD 0) < 2 ∧
     create_pick s u req =
       ({ s with picks := removeFirstPick s.picks u (reqWeek req) ++ [mkPick u req] },
        Except.ok (mkPick u req))) := by
  cases hf : (falsyNat req.matchId || falsyNat req.teamId) with
  | true => exact Or.inl ⟨_, cp_missing hf⟩
  | false =>
    by_cases hw : reqWeek req ≤ 2
    · exact Or.inl ⟨_, cp_closed hf hw⟩
    · by_cases hl : 0 < loser_count s u (req.teamId.getD 0)
      · exact Or.inl ⟨_, cp_elim hf (by omega) hl⟩
      · by_cases hc : 2 ≤ winner_count s u (req.teamId.getD 0)
        · exact Or.inl ⟨_, cp_cap hf (by omega) (by omega) hc⟩
        · exact Or.inr ⟨rfl, by omega, by omega, by omega,
            cp_ok hf (by omega) (by omega) (by omega)⟩

/-- Inversion of a successful run: the guards that must have held and the
resulting store. -/
theorem cp_ok_inv {s : State} {u : Nat} {req : PickRequest} {pk : Pick}
    (h : (create_pick s u req).2 = Except.ok pk) :
    (falsyNat req.matchId || falsyNat req.teamId) = false ∧
    2 < reqWeek req ∧
    loser_count s u (req.teamId.getD 0) = 0 ∧
    winner_count s u (req.teamId.getD 0) < 2 ∧
    pk = mkPick u req ∧
    (create_pick s u req).1 =
      { s with picks := removeFirstPick s.picks u (reqWeek req) ++ [mkPick u req] } := by
  rcases cp_cases s u req with ⟨e, he⟩ | ⟨h1, h2, h3, h4, he⟩
  · rw [he] at h
    exact absurd h (by simp)
  · rw [he] at h
    simp only [] at h
    refine ⟨h1, h2, h3, h4, ?_, by rw [he]⟩
    exact (Except.ok.inj h).symm

/-- `create_pick` never touches the TeamUsage ledger. -/
theorem create_pick_teamUsage (s : State) (u : Nat) (req : PickRequest) :
    (create_pick s u req).1.teamUsage = s.teamUsage := by
  rcases cp_cases s u req with ⟨e, he⟩ | ⟨_, _, _, _, he⟩ <;> rw [he]

/-- C6: every rejected submission leaves the entire store unchanged — the
handler returns before any `db.session` mutation on each failure path. -/
theorem C6_rejection_no_state_change (s : State) (u : Nat) (req : PickRequest)
    (e : PickError) (h : (create_pick s u req).2 = Except.error e) :
    (create_pick s u req).1 = s := by
  rcases cp_cases s u req with ⟨e2, he⟩ | ⟨_, _, _, _, he⟩
  · rw [he]
  · rw [he] at h
    exact absurd h (by simp)

/-- Witness for C6: a request with a missing `team_id` is rejected and the
store is exactly the input store. -/
theorem C6_rejection_no_state_change_witness :
    (create_pick stOneMatch 1 reqNoTeam).1 = stOneMatch :=
  C6_rejection_no_state_change stOneMatch 1 reqNoTeam PickError.missingFields rfl

/-- C10: a request that omits `week` is handled exactly as a request for
week 3 (`data.get('week', 3)`), and every request with a falsy `match_id`
or `team_id` — whatever its week field — is rejected with the
missing-fields error and no state change. -/
theorem C10_week_default_and_missing_fields (s : State) (u : Nat)
    (req : PickRequest) :
    (req.week = none →
      create_pick s u req = create_pick s u { req with week := some 3 }) ∧
    ((falsyNat req.matchId || falsyNat req.teamId) = true →
      (create_pick s u req).2 = Except.error PickError.missingFields ∧
      (create_pick s u req).1 = s) := by
  constructor
  · intro hweek
    simp [create_pick, reqWeek, mkPick, hweek]
  · intro hf
    rw [cp_missing hf]
    exact ⟨rfl, rfl⟩

/-- Witness for C10: a request with no `week` and no `team_id` exercises
both the week default and the missing-fields rejection. -/
theorem C10_week_default_and_missing_fields_witness :
    (reqNoTeam.week = none →
      create_pick stOneMatch 1 reqNoTeam =
        create_pick stOneMatch 1 { reqNoTeam with week := some 3 }) ∧
    ((falsyNat reqNoTeam.matchId || falsyNat reqNoTeam.teamId) = true →
      (create_pick stOneMatch 1 reqNoTeam).2 = Except.error PickError.missingFields ∧
      (create_pick stOneMatch 1 reqNoTeam).1 = stOneMatch) :=
  C10_week_default_and_missing_fields stOneMatch 1 reqNoTeam

/-- Counterexample to C3 as stated: in a store in which every week-3 match
is completed, a week-3 submission is accepted, not rejected with the
week-closed error; and a request missing `match_id` for the closed week 1
fails with the missing-fields error, so the week check is not the first
precondition checked. -/
theorem C3_completed_week_accepted_cex :
    (∀ m ∈ stAllDone.matchRows, m.week = 3 ∧ m.isCompleted = true) ∧
    (create_pick stAllDone 1 reqTeam1W3).2 = Except.ok (mkPick 1 reqTeam1W3) ∧
    (create_pick stAllDone 1
        { matchId := none, teamId := some 1, week := some 1 }).2 =
      Except.error PickError.missingFields := by
  refine ⟨by decide, rfl, rfl⟩

/-- C3 (amended): `create_pick` rejects with the week-closed error exactly
when both id fields are non-falsy and the effective week (request week,
default 3) is at most 2; the completion status of the week's matches is
never consulted, and the check runs after the required-field validation. -/
theorem C3_week_closed_iff (s : State) (u : Nat) (req : PickRequest) :
    (create_pick s u req).2 = Except.error PickError.weekClosed ↔
      falsyNat req.matchId = false ∧ falsyNat req.teamId = false ∧
      reqWeek req ≤ 2 := by
  cases hm : falsyNat req.matchId with
  | true =>
    rw [cp_missing (by simp [hm])]
    simp [hm]
  | false =>
    cases ht : falsyNat req.teamId with
    | true =>
      rw [cp_missing (by simp [hm, ht])]
      simp [ht]
    | false =>
      by_cases hw : reqWeek req ≤ 2
      · rw [cp_closed (by simp [hm, ht]) hw]
        simp [hm, ht, hw]
      · by_cases hl : 0 < loser_count s u (req.teamId.getD 0)
        · rw [cp_elim (by simp [hm, ht]) (by omega) hl]
          simp [hw]
        · by_cases hc : 2 ≤ winner_count s u (req.teamId.getD 0)
          · rw [cp_cap (by simp [hm, ht]) (by omega) (by omega) hc]
            simp [hw]
          · rw [cp_ok (by simp [hm, ht]) (by omega) (by omega) (by omega)]
            simp [hw]

/-- Counterexample to C2 as stated: team 5 plays in neither side of match 1,
yet the submission is accepted — `create_pick` has no team-in-match check
and no invalid-team rejection at all. -/
theorem C2_no_team_in_match_check_cex :
    stOneMatch.matchRows = [openMatch] ∧
    openMatch.id = 1 ∧
    reqTeam5.matchId = some 1 ∧
    reqTeam5.teamId = some 5 ∧
    openMatch.awayTeamId ≠ 5 ∧
    openMatch.homeTeamId ≠ 5 ∧
    (create_pick stOneMatch 1 reqTeam5).2 = Except.ok (mkPick 1 reqTeam5) :=
  ⟨rfl, rfl, rfl, rfl, by decide, by decide, rfl⟩

/-- C2 (amended): `create_pick` performs no validation that the chosen team
belongs to the chosen match; a submission whose team is in neither side of
the match on file is accepted whenever the field, week and usage checks
pass. -/
theorem C2_team_not_in_match_accepted (s : State) (u : Nat) (req : PickRequest)
    (m : Match) (hm : m ∈ s.matchRows) (hid : m.id = req.matchId.getD 0)
    (ha : req.teamId.getD 0 ≠ m.awayTeamId) (hh : req.teamId.getD 0 ≠ m.homeTeamId)
    (hf : (falsyNat req.matchId || falsyNat req.teamId) = false)
    (hw : 2 < reqWeek req)
    (hl : loser_count s u (req.teamId.getD 0) = 0)
    (hc : winner_count s u (req.teamId.getD 0) < 2) :
    create_pick s u req =
      ({ s with picks := removeFirstPick s.picks u (reqWeek req) ++ [mkPick u req] },
       Except.ok (mkPick u req)) :=
  cp_ok hf hw hl hc

/-- Witness for C2 (amended): the concrete store of the counterexample. -/
theorem C2_team_not_in_match_accepted_witness :
    create_pick stOneMatch 1 reqTeam5 =
      ({ stOneMatch with
          picks := removeFirstPick stOneMatch.picks 1 (reqWeek reqTeam5) ++
            [mkPick 1 reqTeam5] },
       Except.ok (mkPick 1 reqTeam5)) :=
  C2_team_not_in_match_accepted stOneMatch 1 reqTeam5 openMatch (by decide) rfl
    (by decide) (by decide) rfl (by decide) rfl (by decide)

/-- C1: in an open week with both id fields supplied, the submission is
rejected by the usage checks exactly when the (user, team) ledger holds at
least one `loser` entry or at least two `winner` entries; with exactly one
`winner` entry and no `loser` entry the usage checks accept the team. -/
theorem C1_usage_gate (s : State) (u : Nat) (req : PickRequest)
    (hf : (falsyNat req.matchId || falsyNat req.teamId) = false)
    (hw : 2 < reqWeek req) :
    ((∃ e, (create_pick s u req).2 = Except.error e ∧
        (e = PickError.teamEliminated ∨ e = PickError.usageCapReached)) ↔
      (1 ≤ loser_count s u (req.teamId.getD 0) ∨
       2 ≤ winner_count s u (req.teamId.getD 0))) ∧
    (loser_count s u (req.teamId.getD 0) = 0 →
      winner_count s u (req.teamId.getD 0) = 1 →
      (create_pick s u req).2 = Except.ok (mkPick u req)) := by
  by_cases hl : 0 < loser_count s u (req.teamId.getD 0)
  · rw [cp_elim hf hw hl]
    constructor
    · constructor
      · intro _
        exact Or.inl (by omega)
      · intro _
        exact ⟨PickError.teamEliminated, rfl, Or.inl rfl⟩
    · intro h0 _
      omega
  · by_cases hc : 2 ≤ winner_count s u (req.teamId.getD 0)
    · rw [cp_cap hf hw (by omega) hc]
      constructor
      · constructor
        · intro _
          exact Or.inr hc
        · intro _
          exact ⟨PickError.usageCapReached, rfl, Or.inr rfl⟩
      · intro _ h1
        omega
    · rw [cp_ok hf hw (by omega) (by omega)]
      constructor
      · constructor
        · rintro ⟨e, he, _⟩
          exact absurd he (by simp)
        · intro h
          exfalso
          rcases h with h | h
          · omega
          · omega
      · intro _ _
        rfl

/-- Witness for C1: one prior `winner` entry for (user 1, team 5) and no
`loser` entry — the week-3 submission of team 5 is accepted. -/
theorem C1_usage_gate_witness :
    ((∃ e, (create_pick stOneWinner 1 reqTeam5).2 = Except.error e ∧
        (e = PickError.teamEliminated ∨ e = PickError.usageCapReached)) ↔
      (1 ≤ loser_count stOneWinner 1 (reqTeam5.teamId.getD 0) ∨
       2 ≤ winner_count stOneWinner 1 (reqTeam5.teamId.getD 0))) ∧
    (loser_count stOneWinner 1 (reqTeam5.teamId.getD 0) = 0 →
      winner_count stOneWinner 1 (reqTeam5.teamId.getD 0) = 1 →
      (create_pick stOneWinner 1 reqTeam5).2 = Except.ok (mkPick 1 reqTeam5)) :=
  C1_usage_gate stOneWinner 1 reqTeam5 rfl (by decide)

/-- Deleting the first (user, week) pick only discards rows. -/
theorem removeFirstPick_sublist (l : List Pick) (u w : Nat) :
    List.Sublist (removeFirstPick l u w) l := by
  induction l with
  | nil => simp [removeFirstPick]
  | cons p rest ih =>
    by_cases h : pickMatches u w p
    · simp [removeFirstPick, h]
    · simpa [removeFirstPick, h] using ih.cons₂ p

/-- If at most one (user, week) pick exists, none is left after deletion. -/
theorem countP_removeFirstPick_self {l : List Pick} {u w : Nat}
    (h : l.countP (pickMatches u w) ≤ 1) :
    (removeFirstPick l u w).countP (pickMatches u w) = 0 := by
  induction l with
  | nil => simp [removeFirstPick]
  | cons p rest ih =>
    by_cases hp : pickMatches u w p
    · rw [List.countP_cons_of_pos _ _ hp] at h
      simp only [removeFirstPick, hp, if_pos]
      omega
    · rw [List.countP_cons_of_neg _ _ hp] at h
      simp only [removeFirstPick, hp, Bool.false_eq_true, if_neg,
        not_false_eq_true]
      rw [List.countP_cons_of_neg _ _ hp]
      exact ih h

/-- Rows of other users or weeks are untouched by the deletion. -/
theorem filter_removeFirstPick (l : List Pick) (u w : Nat) :
    (removeFirstPick l u w).filter (fun p => !(pickMatches u w p)) =
      l.filter (fun p => !(pickMatches u w p)) := by
  induction l with
  | nil => simp [removeFirstPick]
  | cons p rest ih =>
    by_cases hp : pickMatches u w p
    · simp [removeFirstPick, hp]
    · simp [removeFirstPick, hp, ih]

/-- Deleting the first (user, week) pick from a list whose only such pick
sits at the end removes exactly that last element. -/
theorem removeFirstPick_append {l : List Pick} {u w : Nat}
    (h : l.countP (pickMatches u w) = 0) (p : Pick)
    (hp : pickMatches u w p = true) :
    removeFirstPick (l ++ [p]) u w = l := by
  induction l with
  | nil => simp [removeFirstPick, hp]
  | cons q rest ih =>
    by_cases hq : pickMatches u w q
    · rw [List.countP_cons_of_pos _ _ hq] at h
      omega
    · rw [List.countP_cons_of_neg _ _ hq] at h
      simp only [List.cons_append, removeFirstPick, hq, Bool.false_eq_true,
        if_neg, not_false_eq_true]
      exact congrArg (List.cons q) (ih h)

/-- The freshly created pick is a (user, effective-week) row. -/
theorem pickMatches_mkPick (u : Nat) (req : PickRequest) :
    pickMatches u (reqWeek req) (mkPick u req) = true := by
  simp [pickMatches, mkPick]

/-- C5: the at-most-one-pick-per-(user, week) invariant is preserved by a
successful submission, and the submitting user ends with exactly one pick
for the target week (the prior pick, if any, was deleted and replaced). -/
theorem C5_at_most_one_pick_preserved (s : State) (u : Nat) (req : PickRequest)
    (pk : Pick) (hinv : atMostOnePick s)
    (hok : (create_pick s u req).2 = Except.ok pk) :
    atMostOnePick (create_pick s u req).1 ∧
    countPick (create_pick s u req).1 u (reqWeek req) = 1 := by
  obtain ⟨hf, hw, hl, hc, hpk, hstate⟩ := cp_ok_inv hok
  rw [hstate]
  have hone : ∀ w', (List.countP (pickMatches u w') [mkPick u req] = if reqWeek req = w' then 1 else 0) := by
    intro w'
    by_cases hw' : reqWeek req = w'
    · subst hw'
      simp [pickMatches_mkPick]
    · have : pickMatches u w' (mkPick u req) = false := by
        simp [pickMatches, mkPick]
        omega
      simp [this, hw']
  constructor
  · intro u' w'
    unfold countPick
    simp only [List.countP_append]
    by_cases hu : u' = u
    · subst hu
      by_cases hw' : reqWeek req = w'
      · subst hw'
        rw [countP_removeFirstPick_self (hinv u' (reqWeek req)), hone]
        simp
      · rw [hone]
        have hle := (removeFirstPick_sublist s.picks u' (reqWeek req)).countP_le
          (pickMatches u' w')
        have := hinv u' w'
        unfold countPick at this
        simp [hw']
        omega
    · have hmk : pickMatches u' w' (mkPick u req) = false := by
        simp [pickMatches, mkPick]
        omega
      have hle := (removeFirstPick_sublist s.picks u (reqWeek req)).countP_le
        (pickMatches u' w')
      have := hinv u' w'
      unfold countPick at this
      simp [hmk]
      omega
  · unfold countPick
    simp only [List.countP_append]
    rw [countP_removeFirstPick_self (hinv u (reqWeek req)), hone]
    simp

/-- Witness for C5: replacing no pick in an empty picks table. -/
theorem C5_at_most_one_pick_preserved_witness :
    atMostOnePick (create_pick stOneMatch 1 reqTeam1W3).1 ∧
    countPick (create_pick stOneMatch 1 reqTeam1W3).1 1 (reqWeek reqTeam1W3) = 1 :=
  C5_at_most_one_pick_preserved stOneMatch 1 reqTeam1W3 (mkPick 1 reqTeam1W3)
    (fun u w => by simp [countPick, stOneMatch, stEmpty]) rfl

/-- C7: a successful submission writes nothing but the submitting user's
pick for the target week — the TeamUsage ledger, the HistoricalPick table,
the match table and the team table are untouched, and so is every pick row
of any other (user, week). -/
theorem C7_success_frame (s : State) (u : Nat) (req : PickRequest) (pk : Pick)
    (hok : (create_pick s u req).2 = Except.ok pk) :
    (create_pick s u req).1.teamUsage = s.teamUsage ∧
    (create_pick s u req).1.historicalPicks = s.historicalPicks ∧
    (create_pick s u req).1.matchRows = s.matchRows ∧
    (create_pick s u req).1.teams = s.teams ∧
    (create_pick s u req).1.picks.filter (fun p => !(pickMatches u (reqWeek req) p)) =
      s.picks.filter (fun p => !(pickMatches u (reqWeek req) p)) := by
  obtain ⟨hf, hw, hl, hc, hpk, hstate⟩ := cp_ok_inv hok
  rw [hstate]
  refine ⟨rfl, rfl, rfl, rfl, ?_⟩
  rw [List.filter_append, filter_removeFirstPick]
  simp [pickMatches_mkPick]

/-- Witness for C7: a concrete successful submission. -/
theorem C7_success_frame_witness :
    (create_pick stOneMatch 1 reqTeam1W3).1.teamUsage = stOneMatch.teamUsage ∧
    (create_pick stOneMatch 1 reqTeam1W3).1.historicalPicks = stOneMatch.historicalPicks ∧
    (create_pick stOneMatch 1 reqTeam1W3).1.matchRows = stOneMatch.matchRows ∧
    (create_pick stOneMatch 1 reqTeam1W3).1.teams = stOneMatch.teams ∧
    (create_pick stOneMatch 1 reqTeam1W3).1.picks.filter
        (fun p => !(pickMatches 1 (reqWeek reqTeam1W3) p)) =
      stOneMatch.picks.filter (fun p => !(pickMatches 1 (reqWeek reqTeam1W3) p)) :=
  C7_success_frame stOneMatch 1 reqTeam1W3 (mkPick 1 reqTeam1W3) rfl

/-- C8: in a state satisfying the at-most-one-pick invariant, repeating an
accepted submission with identical arguments reproduces the same store and
the same response — replacing a pick with itself is a no-op in effect. -/
theorem C8_idempotent_resubmission (s : State) (u : Nat) (req : PickRequest)
    (pk : Pick) (hinv : atMostOnePick s)
    (hok : (create_pick s u req).2 = Except.ok pk) :
    create_pick (create_pick s u req).1 u req = create_pick s u req := by
  obtain ⟨hf, hw, hl, hc, hpk, hstate⟩ := cp_ok_inv hok
  have hl2 : loser_count (create_pick s u req).1 u (req.teamId.getD 0) = 0 := by
    unfold loser_count teamUsageFor
    rw [create_pick_teamUsage]
    exact hl
  have hc2 : winner_count (create_pick s u req).1 u (req.teamId.getD 0) < 2 := by
    unfold winner_count teamUsageFor
    rw [create_pick_teamUsage]
    exact hc
  have h1 : create_pick s u req =
      ({ s with picks := removeFirstPick s.picks u (reqWeek req) ++ [mkPick u req] },
       Except.ok (mkPick u req)) := cp_ok hf hw hl hc
  have h2 := cp_ok hf hw hl2 hc2
  rw [h2, h1]
  have hzero : (removeFirstPick s.picks u (reqWeek req)).countP
      (pickMatches u (reqWeek req)) = 0 :=
    countP_removeFirstPick_self (hinv u (reqWeek req))
  have hrm : removeFirstPick
      (removeFirstPick s.picks u (reqWeek req) ++ [mkPick u req]) u (reqWeek req) =
      removeFirstPick s.picks u (reqWeek req) :=
    removeFirstPick_append hzero _ (pickMatches_mkPick u req)
  simp [hrm]

/-- Witness for C8: resubmitting the identical accepted request. -/
theorem C8_idempotent_resubmission_witness :
    create_pick (create_pick stOneMatch 1 reqTeam1W3).1 1 reqTeam1W3 =
      create_pick stOneMatch 1 reqTeam1W3 :=
  C8_idempotent_resubmission stOneMatch 1 reqTeam1W3 (mkPick 1 reqTeam1W3)
    (fun u w => by simp [countPick, stOneMatch, stEmpty]) rfl

/-- A sequence of submissions never touches the TeamUsage ledger. -/
theorem runAll_teamUsage (calls : List (Nat × PickRequest)) :
    ∀ s : State, (runAll s calls).teamUsage = s.teamUsage := by
  induction calls with
  | nil => intro s; rfl
  | cons c rest ih =>
    intro s
    show (runAll (stepState s c) rest).teamUsage = s.teamUsage
    rw [ih, stepState, create_pick_teamUsage]

/-- A `loser` ledger entry makes the handler's loser count positive. -/
theorem hasLoserEntry_pos {s : State} {u t : Nat} (h : hasLoserEntry s u t) :
    0 < loser_count s u t := by
  obtain ⟨e, he, h1, h2, h3⟩ := h
  unfold loser_count teamUsageFor
  apply List.countP_pos_iff.mpr
  exact ⟨e, List.mem_filter.mpr ⟨he, by simp [h1, h2]⟩, by simp [h3]⟩

/-- C4: once a `loser` TeamUsage entry exists for (user, team), no later
submission of that team by that user is ever accepted — the entry survives
any sequence of further submissions and the handler then rejects the team,
regardless of the requested week. -/
theorem C4_loser_permanent (s : State) (u t : Nat) (h : hasLoserEntry s u t)
    (calls : List (Nat × PickRequest)) (req : PickRequest)
    (hreq : req.teamId = some t) (pk : Pick) :
    hasLoserEntry (runAll s calls) u t ∧
    (create_pick (runAll s calls) u req).2 ≠ Except.ok pk := by
  have hpres : hasLoserEntry (runAll s calls) u t := by
    unfold hasLoserEntry
    rw [runAll_teamUsage]
    exact h
  refine ⟨hpres, ?_⟩
  intro hok
  obtain ⟨hf, hw, hl, hc, _, _⟩ := cp_ok_inv hok
  have : 0 < loser_count (runAll s calls) u t := hasLoserEntry_pos hpres
  rw [hreq] at hl
  simp only [Option.getD_some] at hl
  omega

/-- Witness for C4: user 1 lost with team 5 in week 1; after one further
submission by another user, picking team 5 again in week 6 is rejected. -/
theorem C4_loser_permanent_witness :
    hasLoserEntry (runAll stLoser [(2, reqTeam1W3)]) 1 5 ∧
    (create_pick (runAll stLoser [(2, reqTeam1W3)]) 1
        { matchId := some 9, teamId := some 5, week := some 6 }).2 ≠
      Except.ok (mkPick 1 { matchId := some 9, teamId := some 5, week := some 6 }) :=
  C4_loser_permanent stLoser 1 5 ⟨loserEntry, by decide, rfl, rfl, rfl⟩ [(2, reqTeam1W3)]
    { matchId := some 9, teamId := some 5, week := some 6 } rfl
    (mkPick 1 { matchId := some 9, teamId := some 5, week := some 6 })

/-- An existing (user, week) HistoricalPick still exists after appending. -/
theorem hpExistsFor_append (hps l : List HistoricalPick) (u w : Nat)
    (h : hpExistsFor hps u w = true) : hpExistsFor (hps ++ l) u w = true := by
  simp only [hpExistsFor, List.any_append, Bool.or_eq_true]
  exact Or.inl h

/-- The existence check is equivalent to a positive (user, week) count. -/
theorem hpExistsFor_true_iff (hps : List HistoricalPick) (u w : Nat) :
    hpExistsFor hps u w = true ↔ 0 < hpCountFor hps u w := by
  simp [hpExistsFor, hpCountFor, List.any_eq_true, List.countP_pos_iff]

/-- Resolution only appends to the HistoricalPick table. -/
theorem resolveLoop_hps_prefix (w : Nat) (rows : List Match) (teams : List Team) :
    ∀ (ps : List Pick) (hps : List HistoricalPick) (tus : List TeamUsage),
      ∃ l, (resolveLoop w rows teams ps hps tus).2.1 = hps ++ l := by
  intro ps
  induction ps with
  | nil =>
    intro hps tus
    exact ⟨[], by simp [resolveLoop]⟩
  | cons p rest ih =>
    intro hps tus
    rcases hres : pickResolvable w rows p with _ | m
    · simpa [resolveLoop, hres] using ih hps tus
    · by_cases hEx : hpExistsFor hps p.userId w = true
      · simpa [resolveLoop, hres, hEx] using ih hps tus
      · obtain ⟨l, hl⟩ := ih (hps ++ [mkHistorical teams w p m])
          (tus ++ [mkUsage w p m])
        refine ⟨mkHistorical teams w p m :: l, ?_⟩
        simp only [resolveLoop, hres, hEx, Bool.false_eq_true, if_neg,
          not_false_eq_true]
        rw [hl, List.append_assoc]
        rfl

/-- Every pick kept by a resolution pass is skipped for a reason that is
still valid afterwards: its match is not completed (or not on file, or it
is another week's pick), or a HistoricalPick of its (user, week) exists. -/
theorem resolveLoop_kept_skipped (w : Nat) (rows : List Match) (teams : List Team) :
    ∀ (ps : List Pick) (hps : List HistoricalPick) (tus : List TeamUsage),
      ∀ p ∈ (resolveLoop w rows teams ps hps tus).1,
        pickResolvable w rows p = none ∨
        hpExistsFor (resolveLoop w rows teams ps hps tus).2.1 p.userId w = true := by
  intro ps
  induction ps with
  | nil =>
    intro hps tus p hp
    simp [resolveLoop] at hp
  | cons q rest ih =>
    intro hps tus p hp
    rcases hres : pickResolvable w rows q with _ | m
    · simp only [resolveLoop, hres] at hp ⊢
      rcases List.mem_cons.mp hp with rfl | hp
      · exact Or.inl hres
      · exact ih hps tus p hp
    · by_cases hEx : hpExistsFor hps q.userId w = true
      · simp only [resolveLoop, hres, hEx, if_pos] at hp ⊢
        rcases List.mem_cons.mp hp with rfl | hp
        · obtain ⟨l, hl⟩ := resolveLoop_hps_prefix w rows teams rest hps tus
          exact Or.inr (by rw [hl]; exact hpExistsFor_append hps l p.userId w hEx)
        · exact ih hps tus p hp
      · simp only [resolveLoop, hres, hEx, Bool.false_eq_true, if_neg,
          not_false_eq_true] at hp ⊢
        exact ih _ _ p hp

/-- A resolution pass over picks that are all skipped is the identity. -/
theorem resolveLoop_noop (w : Nat) (rows : List Match) (teams : List Team) :
    ∀ (ps : List Pick) (hps : List HistoricalPick) (tus : List TeamUsage),
      (∀ p ∈ ps, pickResolvable w rows p = none ∨
        hpExistsFor hps p.userId w = true) →
      resolveLoop w rows teams ps hps tus = (ps, hps, tus) := by
  intro ps
  induction ps with
  | nil =>
    intro hps tus _
    simp [resolveLoop]
  | cons q rest ih =>
    intro hps tus h
    rcases hres : pickResolvable w rows q with _ | m
    · simp only [resolveLoop, hres]
      rw [ih hps tus (fun p hp => h p (List.mem_cons_of_mem q hp))]
    · have hEx : hpExistsFor hps q.userId w = true := by
        rcases h q (List.mem_cons_self q rest) with h0 | h0
        · rw [hres] at h0
          exact absurd h0 (by simp)
        · exact h0
      simp only [resolveLoop, hres, hEx, if_pos]
      rw [ih hps tus (fun p hp => h p (List.mem_cons_of_mem q hp))]

/-- Modelled week resolution is idempotent on the whole store. -/
theorem resolveWeek_idem (w : Nat) (s : State) :
    resolveWeek w (resolveWeek w s) = resolveWeek w s := by
  unfold resolveWeek
  rw [resolveLoop_noop w s.matchRows s.teams _ _ _
    (resolveLoop_kept_skipped w s.matchRows s.teams s.picks s.historicalPicks
      s.teamUsage)]

/-- One resolution pass creates exactly one HistoricalPick and one TeamUsage
row for a user with a resolvable pick and none on file, and none at all for
anyone else. -/
theorem resolveLoop_counts (w : Nat) (rows : List Match) (teams : List Team)
    (u : Nat) :
    ∀ (ps : List Pick) (hps : List HistoricalPick) (tus : List TeamUsage),
      ((hpCountFor hps u w = 0 ∧
          ∃ p ∈ ps, p.userId = u ∧ pickResolvable w rows p ≠ none) →
        hpCountFor (resolveLoop w rows teams ps hps tus).2.1 u w = 1 ∧
        tuCountFor (resolveLoop w rows teams ps hps tus).2.2 u w =
          tuCountFor tus u w + 1) ∧
      (¬(hpCountFor hps u w = 0 ∧
          ∃ p ∈ ps, p.userId = u ∧ pickResolvable w rows p ≠ none) →
        hpCountFor (resolveLoop w rows teams ps hps tus).2.1 u w =
          hpCountFor hps u w ∧
        tuCountFor (resolveLoop w rows teams ps hps tus).2.2 u w =
          tuCountFor tus u w) := by
  intro ps
  induction ps with
  | nil =>
    intro hps tus
    constructor
    · rintro ⟨_, p, hp, _⟩
      simp at hp
    · intro _
      simp [resolveLoop]
  | cons q rest ih =>
    intro hps tus
    rcases hres : pickResolvable w rows q with _ | m
    · have hcond : (∃ p ∈ q :: rest, p.userId = u ∧ pickResolvable w rows p ≠ none) ↔
          (∃ p ∈ rest, p.userId = u ∧ pickResolvable w rows p ≠ none) := by
        simp [hres]
      constructor
      · rintro ⟨h0, hex⟩
        have hrec := (ih hps tus).1 ⟨h0, hcond.mp hex⟩
        simpa [resolveLoop, hres] using hrec
      · intro hn
        have hrec := (ih hps tus).2 (fun hc => hn ⟨hc.1, hcond.mpr hc.2⟩)
        simpa [resolveLoop, hres] using hrec
    · by_cases hEx : hpExistsFor hps q.userId w = true
      · by_cases hu : q.userId = u
        · have hpos : 0 < hpCountFor hps u w := by
            have h := (hpExistsFor_true_iff hps q.userId w).mp hEx
            rw [hu] at h
            exact h
          constructor
          · rintro ⟨h0, _⟩
            omega
          · intro _
            have hrec := (ih hps tus).2 (fun hc => by omega)
            simpa [resolveLoop, hres, hEx] using hrec
        · have hcond : (∃ p ∈ q :: rest, p.userId = u ∧ pickResolvable w rows p ≠ none) ↔
              (∃ p ∈ rest, p.userId = u ∧ pickResolvable w rows p ≠ none) := by
            simp [hu]
          constructor
          · rintro ⟨h0, hex⟩
            have hrec := (ih hps tus).1 ⟨h0, hcond.mp hex⟩
            simpa [resolveLoop, hres, hEx] using hrec
          · intro hn
            have hrec := (ih hps tus).2 (fun hc => hn ⟨hc.1, hcond.mpr hc.2⟩)
            simpa [resolveLoop, hres, hEx] using hrec
      · by_cases hu : q.userId = u
        · have hEx' : ¬ hpExistsFor hps u w = true := by
            rw [← hu]
            exact hEx
          have h0 : hpCountFor hps u w = 0 := by
            by_contra h
            exact hEx' ((hpExistsFor_true_iff hps u w).mpr (Nat.pos_of_ne_zero h))
          have h1 : hpCountFor (hps ++ [mkHistorical teams w q m]) u w = 1 := by
            have h0' := h0
            unfold hpCountFor at h0' ⊢
            rw [List.countP_append, h0']
            simp [mkHistorical, hu]
          have h2 : tuCountFor (tus ++ [mkUsage w q m]) u w = tuCountFor tus u w + 1 := by
            unfold tuCountFor
            rw [List.countP_append]
            simp [mkUsage, hu]
          have hrec := (ih (hps ++ [mkHistorical teams w q m]) (tus ++ [mkUsage w q m])).2
            (fun hc => by rw [h1] at hc; omega)
          constructor
          · intro _
            have hout : resolveLoop w rows teams (q :: rest) hps tus =
                resolveLoop w rows teams rest (hps ++ [mkHistorical teams w q m])
                  (tus ++ [mkUsage w q m]) := by
              simp [resolveLoop, hres, hEx]
            rw [hout]
            exact ⟨by rw [hrec.1, h1], by rw [hrec.2, h2]⟩
          · intro hn
            exfalso
            exact hn ⟨h0, q, List.mem_cons_self q rest, hu, by simp [hres]⟩
        · have h1 : hpCountFor (hps ++ [mkHistorical teams w q m]) u w =
              hpCountFor hps u w := by
            unfold hpCountFor
            rw [List.countP_append]
            simp [mkHistorical, hu]
          have h2 : tuCountFor (tus ++ [mkUsage w q m]) u w = tuCountFor tus u w := by
            unfold tuCountFor
            rw [List.countP_append]
            simp [mkUsage, hu]
          have hcond : (∃ p ∈ q :: rest, p.userId = u ∧ pickResolvable w rows p ≠ none) ↔
              (∃ p ∈ rest, p.userId = u ∧ pickResolvable w rows p ≠ none) := by
            simp [hu]
          have hout : resolveLoop w rows teams (q :: rest) hps tus =
              resolveLoop w rows teams rest (hps ++ [mkHistorical teams w q m])
                (tus ++ [mkUsage w q m]) := by
            simp [resolveLoop, hres, hEx]
          constructor
          · rintro ⟨h0, hex⟩
            have hrec := (ih (hps ++ [mkHistorical teams w q m]) (tus ++ [mkUsage w q m])).1
              ⟨by rw [h1]; exact h0, hcond.mp hex⟩
            rw [hout]
            exact ⟨hrec.1, by rw [hrec.2, h2]⟩
          · intro hn
            have hrec := (ih (hps ++ [mkHistorical teams w q m]) (tus ++ [mkUsage w q m])).2
              (fun hc => hn ⟨by rw [← h1]; exact hc.1, hcond.mpr hc.2⟩)
            rw [hout]
            exact ⟨hrec.1.trans h1, hrec.2.trans h2⟩

/-- One full resolution run on a clean store gives the (user, week) exactly
one HistoricalPick and one new TeamUsage row. -/
theorem resolveWeek_counts (w : Nat) (s : State) (u : Nat)
    (hhp : hpCountFor s.historicalPicks u w = 0)
    (hpick : ∃ p ∈ s.picks, p.userId = u ∧ pickResolvable w s.matchRows p ≠ none) :
    hpCountFor (resolveWeek w s).historicalPicks u w = 1 ∧
    tuCountFor (resolveWeek w s).teamUsage u w = tuCountFor s.teamUsage u w + 1 :=
  (resolveLoop_counts w s.matchRows s.teams u s.picks s.historicalPicks
    s.teamUsage).1 ⟨hhp, hpick⟩

/-- Iterating an idempotent resolution at least once equals running it once. -/
theorem resolveWeek_iterate (w : Nat) (n : Nat) (hn : 1 ≤ n) (s : State) :
    (resolveWeek w)^[n] s = resolveWeek w s := by
  induction n with
  | zero => omega
  | succ k ih =>
    rcases Nat.eq_zero_or_pos k with hk | hk
    · subst hk
      simp
    · rw [Function.iterate_succ_apply', ih hk, resolveWeek_idem]

/-- C9: week resolution is idempotent.  For a user with a resolvable open
pick in the resolved week and no HistoricalPick or TeamUsage row for that
(user, week) yet, any positive number of resolution runs leaves exactly one
HistoricalPick and exactly one TeamUsage entry for that (user, week); and a
second resolution run is a no-op on the whole store.  (Week resolution is
absent from the repository sources; `resolveWeek` is modelled from spec
section 4.2.) -/
theorem C9_resolution_idempotent (s : State) (w u n : Nat)
    (hhp : hpCountFor s.historicalPicks u w = 0)
    (htu : tuCountFor s.teamUsage u w = 0)
    (hpick : ∃ p ∈ s.picks, p.userId = u ∧ pickResolvable w s.matchRows p ≠ none)
    (hn : 1 ≤ n) :
    hpCountFor ((resolveWeek w)^[n] s).historicalPicks u w = 1 ∧
    tuCountFor ((resolveWeek w)^[n] s).teamUsage u w = 1 ∧
    resolveWeek w (resolveWeek w s) = resolveWeek w s := by
  rw [resolveWeek_iterate w n hn s]
  obtain ⟨h1, h2⟩ := resolveWeek_counts w s u hhp hpick
  exact ⟨h1, by omega, resolveWeek_idem w s⟩

/-- Witness for C9: resolving week 3 of a store holding one completed match
and one open pick, once and twice. -/
theorem C9_resolution_idempotent_witness :
    hpCountFor ((resolveWeek 3)^[1] stResolve).historicalPicks 1 3 = 1 ∧
    tuCountFor ((resolveWeek 3)^[1] stResolve).teamUsage 1 3 = 1 ∧
    resolveWeek 3 (resolveWeek 3 stResolve) = resolveWeek 3 stResolve :=
  C9_resolution_idempotent stResolve 3 1 1 rfl rfl
    ⟨pickA, by decide, rfl, by decide⟩ (by decide)
